import Mathlib

/-
Verification of the real-time polling service (FastAPI/SQLAlchemy backend).

Shallow embedding of the data model (database.py), the API schemas
(schemas.py), the HTTP/WebSocket handlers (main.py) and the connection
manager (websocket.py).  Database rows are records held in append-only
lists (matching insertion / primary-key order of the relational tables);
`server_default=func.now()` timestamps and `datetime.utcnow()` reads are
modelled by a monotone counter `Store.now` that every time-read consumes.
HTTPException aborts (FastAPI rolls nothing forward: each raise happens
before the corresponding mutation, which the embedding makes explicit by
returning the unchanged store on error paths).  WebSocket handles are
natural numbers; a per-connection delivery oracle `sendOk` models whether
`await connection.send_text(...)` succeeds or raises.
-/

set_option maxHeartbeats 1600000

/-- Row of the `users` table (database.py, class User). -/
structure User where
  id : Nat
  name : String
  email : String
  password_hash : String
  created_at : Nat
deriving DecidableEq, Repr

/-- Row of the `polls` table (database.py, class Poll). -/
structure Poll where
  id : Nat
  question : String
  is_published : Bool
  created_at : Nat
  updated_at : Nat
  creator_id : Nat
deriving DecidableEq, Repr

/-- Row of the `poll_options` table (database.py, class PollOption). -/
structure PollOption where
  id : Nat
  text : String
  poll_id : Nat
  created_at : Nat
deriving DecidableEq, Repr

/-- Row of the `votes` association table (database.py,
`user_poll_option_votes`). -/
structure VoteRow where
  id : Nat
  user_id : Nat
  poll_option_id : Nat
  created_at : Nat
deriving DecidableEq, Repr

/-- The relational store (the Poll Store collaborator): one append-only
list per table, fresh-id counters for the serial primary keys, and the
monotone clock backing `func.now()` / `datetime.utcnow()`. -/
structure Store where
  users : List User
  polls : List Poll
  pollOptions : List PollOption
  votes : List VoteRow
  nextUserId : Nat
  nextPollId : Nat
  nextOptionId : Nat
  nextVoteId : Nat
  now : Nat
deriving DecidableEq, Repr

/-- An HTTPException raised by a handler: status code plus detail string. -/
structure ApiError where
  status : Nat
  detail : String
deriving DecidableEq, Repr

/-- schemas.py, class UserResponse. -/
structure UserResponse where
  id : Nat
  name : String
  email : String
  created_at : Nat
deriving DecidableEq, Repr

/-- schemas.py, class PollOptionResponse. -/
structure PollOptionResponse where
  id : Nat
  text : String
  vote_count : Nat
deriving DecidableEq, Repr

/-- schemas.py, class PollResponse. -/
structure PollResponse where
  id : Nat
  question : String
  is_published : Bool
  created_at : Nat
  updated_at : Nat
  creator_id : Nat
  options : List PollOptionResponse
deriving DecidableEq, Repr

/-- schemas.py, class VoteResponse: these three fields are the whole
response body of POST /api/votes. -/
structure VoteResponse where
  user_id : Nat
  poll_option_id : Nat
  created_at : Nat
deriving DecidableEq, Repr

/-- Modelled from the spec: the Auth Provider's `hash_password` lives in
auth.py, which is not under src/; the spec treats password hashing as an
out-of-scope external collaborator, so it is modelled as an injective
tagging of the password.  No claim depends on its value. -/
def hash_password (password : String) : String :=
  "hashed:" ++ password

/-- The `Poll.options` relationship (database.py line 50): the options
rows whose foreign key points at the given poll, in table insertion
order. -/
def Store.optionsOfPoll (s : Store) (pollId : Nat) : List PollOption :=
  s.pollOptions.filter (fun o => o.poll_id == pollId)

/-- The `PollOption.voters` relationship (database.py line 62) as the SQL
join through the `votes` secondary table: one user id per matching votes
row. -/
def Store.votersOf (s : Store) (optionId : Nat) : List Nat :=
  (s.votes.filter (fun v => v.poll_option_id == optionId)).map (fun v => v.user_id)

/-- main.py `get_poll_with_votes` (lines 105-129): load the poll (404 if
absent), then build one PollOptionResponse per option of the poll with
`vote_count = len(option.voters)`. -/
def get_poll_with_votes (s : Store) (poll_id : Nat) : Except ApiError PollResponse :=
  match s.polls.find? (fun p => p.id == poll_id) with
  | none => .error ⟨404, "Poll not found"⟩
  | some poll =>
      .ok { id := poll.id
            question := poll.question
            is_published := poll.is_published
            created_at := poll.created_at
            updated_at := poll.updated_at
            creator_id := poll.creator_id
            options := (s.optionsOfPoll poll.id).map (fun o =>
              { id := o.id, text := o.text, vote_count := (s.votersOf o.id).length }) }

/-- main.py `create_user` (lines 35-51): reject a duplicate email with
400, otherwise insert the user row. -/
def create_user (s : Store) (name email password : String) :
    Except ApiError UserResponse × Store :=
  match s.users.find? (fun u => u.email == email) with
  | some _ => (.error ⟨400, "Email already registered"⟩, s)
  | none =>
      let u : User := ⟨s.nextUserId, name, email, hash_password password, s.now⟩
      (.ok ⟨u.id, u.name, u.email, u.created_at⟩,
       { s with users := s.users ++ [u], nextUserId := s.nextUserId + 1,
                now := s.now + 1 })

/-- The option-insertion loop of main.py `create_poll` (lines 84-91): one
PollOption row appended per requested option text, ids drawn from the
serial counter, in the given order. -/
def addOptions (pollId : Nat) (texts : List String) (s : Store) : Store :=
  texts.foldl (fun acc txt =>
    { acc with
      pollOptions := acc.pollOptions ++ [⟨acc.nextOptionId, txt, pollId, acc.now⟩],
      nextOptionId := acc.nextOptionId + 1,
      now := acc.now + 1 }) s

/-- main.py `create_poll` (lines 67-94): verify the creator exists (404),
insert the poll row (created_at and updated_at both take the insert-time
`func.now()`), insert its options, and return `get_poll_with_votes`. -/
def create_poll (s : Store) (question : String) (is_published : Bool)
    (optionTexts : List String) (creator_id : Nat) :
    Except ApiError PollResponse × Store :=
  match s.users.find? (fun u => u.id == creator_id) with
  | none => (.error ⟨404, "Creator not found"⟩, s)
  | some _ =>
      let p : Poll := ⟨s.nextPollId, question, is_published, s.now, s.now, creator_id⟩
      let s1 : Store :=
        { s with polls := s.polls ++ [p], nextPollId := s.nextPollId + 1,
                 now := s.now + 1 }
      let s2 := addOptions p.id optionTexts s1
      (get_poll_with_votes s2 p.id, s2)

/-- websocket.py `ConnectionManager` state: the global connected list and
the poll_subscribers dict (an insertion-ordered association list, as a
Python dict is). -/
structure ConnectionManager where
  active_connections : List Nat
  poll_subscribers : List (Nat × List Nat)
deriving DecidableEq, Repr

/-- websocket.py `ConnectionManager.connect` (lines 10-12). -/
def ConnectionManager.connect (m : ConnectionManager) (ws : Nat) : ConnectionManager :=
  { m with active_connections := m.active_connections ++ [ws] }

/-- websocket.py `ConnectionManager.disconnect` (lines 14-20): remove the
socket from the connected list and from every poll's subscriber list
(Python `list.remove` deletes the first occurrence). -/
def ConnectionManager.disconnect (m : ConnectionManager) (ws : Nat) : ConnectionManager :=
  { active_connections :=
      if m.active_connections.contains ws then m.active_connections.erase ws
      else m.active_connections,
    poll_subscribers := m.poll_subscribers.map (fun e =>
      if e.2.contains ws then (e.1, e.2.erase ws) else e) }

/-- websocket.py `ConnectionManager.subscribe_to_poll` (lines 22-26):
create the dict entry if absent, then append the socket unless already
present. -/
def ConnectionManager.subscribe_to_poll (m : ConnectionManager) (poll_id ws : Nat) :
    ConnectionManager :=
  let subs :=
    if (m.poll_subscribers.find? (fun e => e.1 == poll_id)).isSome
    then m.poll_subscribers
    else m.poll_subscribers ++ [(poll_id, [])]
  { m with poll_subscribers := subs.map (fun e =>
      if e.1 == poll_id then (e.1, if e.2.contains ws then e.2 else e.2 ++ [ws])
      else e) }

/-- The subscriber list currently registered for a poll (empty when the
poll id is not a key of the dict). -/
def ConnectionManager.subscribersOf (m : ConnectionManager) (poll_id : Nat) : List Nat :=
  ((m.poll_subscribers.find? (fun e => e.1 == poll_id)).map Prod.snd).getD []

/-- Result of one broadcast: the updated manager, the connections a send
was attempted to, and those whose send succeeded. -/
structure BroadcastRun where
  mgr : ConnectionManager
  attempted : List Nat
  delivered : List Nat
deriving DecidableEq, Repr

/-- websocket.py `ConnectionManager.broadcast_poll_update` (lines 28-39):
if the poll has a subscriber list, try `send_text` on every connection in
it (the bare `except` swallows each failure, collecting the connection in
`disconnected`), then `list.remove` each failed connection from the
list.  `sendOk` is the delivery oracle for this broadcast. -/
def ConnectionManager.broadcast_poll_update (m : ConnectionManager) (poll_id : Nat)
    (sendOk : Nat → Bool) : BroadcastRun :=
  match m.poll_subscribers.find? (fun e => e.1 == poll_id) with
  | none => ⟨m, [], []⟩
  | some entry =>
      let conns := entry.2
      let disconnected := conns.filter (fun c => !sendOk c)
      let remaining := disconnected.foldl (fun acc c => acc.erase c) conns
      ⟨{ m with poll_subscribers := m.poll_subscribers.map (fun e =>
           if e.1 == poll_id then (e.1, remaining) else e) },
       conns, conns.filter (fun c => sendOk c)⟩

/-- A frame pushed over a websocket (main.py lines 161-164 and 181-184). -/
inductive Frame where
  | poll_update (poll : PollResponse)
  | initial_data (poll : PollResponse)
deriving DecidableEq, Repr

/-- One broadcast emitted during a request: the target poll, the frame,
and which connections were attempted / reached. -/
structure BroadcastEvent where
  poll_id : Nat
  frame : Frame
  attempted : List Nat
  delivered : List Nat
deriving DecidableEq, Repr

/-- INSERT into the `votes` table: fresh serial id, `created_at` from the
insert-time `func.now()`. -/
def Store.insertVote (s : Store) (uid oid : Nat) : Store :=
  { s with votes := s.votes ++ [⟨s.nextVoteId, uid, oid, s.now⟩],
           nextVoteId := s.nextVoteId + 1,
           now := s.now + 1 }

deriving instance DecidableEq for Except

/-- Everything one call of `cast_vote` produces: the HTTP result, the
post-state of the store and of the connection manager, and the broadcasts
emitted. -/
structure CastVoteOut where
  result : Except ApiError VoteResponse
  store : Store
  mgr : ConnectionManager
  broadcasts : List BroadcastEvent
deriving DecidableEq, Repr

/-- main.py `cast_vote` (lines 133-170), step by step:
verify the user exists (404); verify the option exists (404); fetch the
user's existing vote rows and the ids of all options of the option's
parent poll, rejecting with 400 "User has already voted for this poll"
if any existing vote hits an option of that poll; otherwise append the
vote row when `poll_option not in user.voted_options` (i.e. no votes row
joins this user to this option); rebuild the poll via
`get_poll_with_votes` (an HTTPException there propagates and skips the
broadcast); broadcast the `poll_update` frame; and answer with a
VoteResponse whose `created_at` is a fresh `datetime.utcnow()` reading,
taken after the broadcast. -/
def cast_vote (s : Store) (m : ConnectionManager) (sendOk : Nat → Bool)
    (poll_option_id user_id : Nat) : CastVoteOut :=
  match s.users.find? (fun u => u.id == user_id) with
  | none => ⟨.error ⟨404, "User not found"⟩, s, m, []⟩
  | some user =>
  match s.pollOptions.find? (fun o => o.id == poll_option_id) with
  | none => ⟨.error ⟨404, "Poll option not found"⟩, s, m, []⟩
  | some poll_option =>
      let existing_votes := s.votes.filter (fun v => v.user_id == user_id)
      let poll_option_ids_for_poll :=
        (s.optionsOfPoll poll_option.poll_id).map (fun o => o.id)
      if existing_votes.any (fun v => poll_option_ids_for_poll.contains v.poll_option_id)
      then ⟨.error ⟨400, "User has already voted for this poll"⟩, s, m, []⟩
      else
        let s1 :=
          if s.votes.any (fun v => v.user_id == user.id && v.poll_option_id == poll_option.id)
          then s
          else s.insertVote user_id poll_option.id
        match get_poll_with_votes s1 poll_option.poll_id with
        | .error e => ⟨.error e, s1, m, []⟩
        | .ok poll_data =>
            let br := m.broadcast_poll_update poll_option.poll_id sendOk
            ⟨.ok ⟨user_id, poll_option_id, s1.now⟩,
             { s1 with now := s1.now + 1 },
             br.mgr,
             [⟨poll_option.poll_id, Frame.poll_update poll_data, br.attempted, br.delivered⟩]⟩

/-- main.py `websocket_endpoint` (lines 173-193) up to its steady state:
accept the connection, subscribe it to the poll, then try to send the
initial data.  A missing poll makes `get_poll_with_votes` raise, which
the `except Exception` arm catches by calling `disconnect`; a failed
initial send (`initialSendOk = false`) takes the same path.  The later
keep-alive loop ends in a separate `disconnect` step. -/
def websocket_endpoint (s : Store) (m : ConnectionManager) (poll_id ws : Nat)
    (initialSendOk : Bool) : ConnectionManager :=
  let m1 := m.connect ws
  let m2 := m1.subscribe_to_poll poll_id ws
  match get_poll_with_votes s poll_id with
  | .error _ => m2.disconnect ws
  | .ok _ => if initialSendOk then m2 else m2.disconnect ws

/-- Whole-system state: the relational store plus the connection
manager singleton. -/
structure Sys where
  store : Store
  mgr : ConnectionManager
deriving DecidableEq, Repr

/-- The operations of the service that touch shared state. -/
inductive Op where
  | createUser (name email password : String)
  | createPoll (question : String) (is_published : Bool)
      (optionTexts : List String) (creator_id : Nat)
  | castVote (poll_option_id user_id : Nat) (sendOk : Nat → Bool)
  | buildSnapshot (poll_id : Nat)
  | wsConnect (poll_id ws : Nat) (initialSendOk : Bool)
  | wsDisconnect (ws : Nat)

/-- One request handled to completion (the asyncio model: each handler's
synchronous sections run without interleaving). -/
def step (σ : Sys) : Op → Sys
  | .createUser n e p => { σ with store := (create_user σ.store n e p).2 }
  | .createPoll q pub opts cid => { σ with store := (create_poll σ.store q pub opts cid).2 }
  | .castVote oid uid f =>
      let r := cast_vote σ.store σ.mgr f oid uid
      ⟨r.store, r.mgr⟩
  | .buildSnapshot _ => σ
  | .wsConnect pid ws ok => { σ with mgr := websocket_endpoint σ.store σ.mgr pid ws ok }
  | .wsDisconnect ws => { σ with mgr := σ.mgr.disconnect ws }

/-- The empty initial state: fresh tables (serial counters start at 1),
no connections. -/
def initSys : Sys :=
  ⟨⟨[], [], [], [], 1, 1, 1, 1, 0⟩, ⟨[], []⟩⟩

/-- State reached after a sequence of requests. -/
def run (ops : List Op) : Sys :=
  ops.foldl step initSys

/-- Invariant I1 of the spec: a user's vote set hits at most one option
of any one poll — two votes of the same user whose options lie in the
same poll are votes for the same option. -/
def I1 (s : Store) : Prop :=
  ∀ v1 ∈ s.votes, ∀ v2 ∈ s.votes, v1.user_id = v2.user_id →
    ∀ o1 ∈ s.pollOptions, ∀ o2 ∈ s.pollOptions,
      o1.id = v1.poll_option_id → o2.id = v2.poll_option_id →
      o1.poll_id = o2.poll_id → v1.poll_option_id = v2.poll_option_id

/-- The inductive strengthening of I1 carried through the reachability
proof: option primary keys are distinct and below the serial counter,
every vote's foreign key resolves, and I1 itself. -/
def StoreInv (s : Store) : Prop :=
  (s.pollOptions.map (fun o => o.id)).Nodup ∧
  (∀ o ∈ s.pollOptions, o.id < s.nextOptionId) ∧
  (∀ v ∈ s.votes, ∃ o ∈ s.pollOptions, o.id = v.poll_option_id) ∧
  I1 s

/-- Invariant I3 of the spec, as a state predicate: every socket present
in some poll's subscriber list points at a poll that exists in the store
(polls are never deleted, so existing now is the same as having existed
when the subscription was made). -/
def SubsInv (σ : Sys) : Prop :=
  ∀ e ∈ σ.mgr.poll_subscribers, ∀ ws ∈ e.2, ∃ p ∈ σ.store.polls, p.id = e.1

/-- Shared test fixture: two users, one poll with two options, no votes. -/
def storeA : Store :=
  ⟨[⟨1, "alice", "a@x", "h", 0⟩, ⟨2, "bob", "b@x", "h", 0⟩],
   [⟨1, "q", true, 3, 3, 1⟩],
   [⟨1, "red", 1, 0⟩, ⟨2, "blue", 1, 0⟩],
   [], 3, 2, 3, 1, 10⟩

/-- Shared test fixture: `storeA` after alice voted for option 1. -/
def storeAv : Store :=
  { storeA with votes := [⟨1, 1, 1, 5⟩], nextVoteId := 2 }

/-- Shared test fixture: two sockets, both subscribed to poll 1. -/
def mgrA : ConnectionManager := ⟨[5, 6], [(1, [5, 6])]⟩

/-- Fixture for C9: option 1 belongs to poll 1. -/
def storeB1 : Store :=
  ⟨[⟨1, "alice", "a@x", "h", 0⟩], [⟨1, "q1", true, 0, 0, 1⟩],
   [⟨1, "red", 1, 0⟩], [], 2, 2, 2, 1, 10⟩

/-- Fixture for C9: same ids, but option 1 belongs to poll 2. -/
def storeB2 : Store :=
  ⟨[⟨1, "alice", "a@x", "h", 0⟩], [⟨2, "q2", true, 0, 0, 1⟩],
   [⟨1, "red", 2, 0⟩], [], 2, 3, 2, 1, 10⟩

/-- Fixture: `storeA` after two distinct users voted for option 1. -/
def storeC : Store :=
  { storeA with votes := [⟨1, 1, 1, 5⟩, ⟨2, 2, 1, 6⟩], nextVoteId := 3 }

/-- Every per-poll subscriber list in the manager is duplicate-free
(`subscribe_to_poll` appends only absent sockets). -/
def MgrNodup (m : ConnectionManager) : Prop :=
  ∀ e ∈ m.poll_subscribers, e.2.Nodup

/-- The combined manager invariant carried through reachability: I3 plus
duplicate-freedom of the subscriber lists. -/
def SysInv (σ : Sys) : Prop :=
  SubsInv σ ∧ MgrNodup σ.mgr

theorem cast_vote_already_voted (s : Store) (m : ConnectionManager) (sendOk : Nat → Bool)
    (oid uid : Nat) (user : User) (opt : PollOption) (v : VoteRow)
    (hu : s.users.find? (fun u => u.id == uid) = some user)
    (ho : s.pollOptions.find? (fun o => o.id == oid) = some opt)
    (hv : v ∈ s.votes) (hvu : v.user_id = uid)
    (hin : v.poll_option_id ∈ (s.optionsOfPoll opt.poll_id).map (fun o => o.id)) :
    cast_vote s m sendOk oid uid =
      ⟨.error ⟨400, "User has already voted for this poll"⟩, s, m, []⟩ := by
  have hany : (s.votes.filter (fun w => w.user_id == uid)).any
      (fun w => ((s.optionsOfPoll opt.poll_id).map (fun o => o.id)).contains w.poll_option_id)
      = true := by
    rw [List.any_eq_true]
    refine ⟨v, List.mem_filter.mpr ⟨hv, by simp [hvu]⟩, by simpa using hin⟩
  simp only [cast_vote, hu, ho]
  rw [if_pos hany]

/-- Claim C1 (amended): a second `cast_vote` for the same (user, option)
is rejected with 400 and mutates nothing. -/
theorem cast_vote_same_option_rejected (s : Store) (m : ConnectionManager)
    (sendOk : Nat → Bool) (oid uid : Nat) (user : User) (opt : PollOption) (v : VoteRow)
    (hu : s.users.find? (fun u => u.id == uid) = some user)
    (ho : s.pollOptions.find? (fun o => o.id == oid) = some opt)
    (hv : v ∈ s.votes) (hvu : v.user_id = uid) (hvo : v.poll_option_id = oid) :
    cast_vote s m sendOk oid uid =
      ⟨.error ⟨400, "User has already voted for this poll"⟩, s, m, []⟩ := by
  have hoid : opt.id = oid := by
    have := List.find?_some ho
    simpa using this
  have hmem : opt ∈ s.pollOptions := List.mem_of_find?_eq_some ho
  refine cast_vote_already_voted s m sendOk oid uid user opt v hu ho hv hvu ?_
  rw [List.mem_map]
  refine ⟨opt, List.mem_filter.mpr ⟨hmem, by simp⟩, by rw [hvo, hoid]⟩

theorem cast_vote_same_option_rejected_witness :
    storeAv.users.find? (fun u => u.id == 1) = some ⟨1, "alice", "a@x", "h", 0⟩ ∧
    storeAv.pollOptions.find? (fun o => o.id == 1) = some ⟨1, "red", 1, 0⟩ ∧
    (⟨1, 1, 1, 5⟩ : VoteRow) ∈ storeAv.votes ∧
    cast_vote storeAv mgrA (fun _ => true) 1 1 =
      ⟨.error ⟨400, "User has already voted for this poll"⟩, storeAv, mgrA, []⟩ :=
  ⟨by decide, by decide, by decide,
   cast_vote_same_option_rejected storeAv mgrA (fun _ => true) 1 1
     ⟨1, "alice", "a@x", "h", 0⟩ ⟨1, "red", 1, 0⟩ ⟨1, 1, 1, 5⟩
     (by decide) (by decide) (by decide) rfl rfl⟩

theorem cast_vote_revote_counterexample :
    (cast_vote storeAv mgrA (fun _ => true) 1 1).result =
      .error ⟨400, "User has already voted for this poll"⟩ ∧
    (cast_vote storeAv mgrA (fun _ => true) 1 1).store = storeAv ∧
    (cast_vote storeAv mgrA (fun _ => true) 1 1).broadcasts = [] := by
  refine ⟨?_, ?_, ?_⟩ <;> decide

/-- Claim C3: a prior vote for a different option of the same poll makes
`cast_vote` fail with DuplicateVote and leave everything untouched. -/
theorem cast_vote_different_option_rejected (s : Store) (m : ConnectionManager)
    (sendOk : Nat → Bool) (oid uid : Nat) (user : User) (opt o2 : PollOption) (v : VoteRow)
    (hu : s.users.find? (fun u => u.id == uid) = some user)
    (ho : s.pollOptions.find? (fun o => o.id == oid) = some opt)
    (hv : v ∈ s.votes) (hvu : v.user_id = uid)
    (h2 : o2 ∈ s.pollOptions) (h2id : o2.id = v.poll_option_id)
    (h2p : o2.poll_id = opt.poll_id) (hne : v.poll_option_id ≠ oid) :
    cast_vote s m sendOk oid uid =
      ⟨.error ⟨400, "User has already voted for this poll"⟩, s, m, []⟩ := by
  refine cast_vote_already_voted s m sendOk oid uid user opt v hu ho hv hvu ?_
  rw [List.mem_map]
  exact ⟨o2, List.mem_filter.mpr ⟨h2, by simp [h2p]⟩, h2id⟩

theorem cast_vote_different_option_rejected_witness :
    storeAv.users.find? (fun u => u.id == 1) = some ⟨1, "alice", "a@x", "h", 0⟩ ∧
    storeAv.pollOptions.find? (fun o => o.id == 2) = some ⟨2, "blue", 1, 0⟩ ∧
    (⟨1, 1, 1, 5⟩ : VoteRow) ∈ storeAv.votes ∧
    (⟨1, "red", 1, 0⟩ : PollOption) ∈ storeAv.pollOptions ∧
    (1 : Nat) ≠ 2 ∧
    cast_vote storeAv mgrA (fun _ => true) 2 1 =
      ⟨.error ⟨400, "User has already voted for this poll"⟩, storeAv, mgrA, []⟩ :=
  ⟨by decide, by decide, by decide, by decide, by decide,
   cast_vote_different_option_rejected storeAv mgrA (fun _ => true) 2 1
     ⟨1, "alice", "a@x", "h", 0⟩ ⟨2, "blue", 1, 0⟩ ⟨1, "red", 1, 0⟩ ⟨1, 1, 1, 5⟩
     (by decide) (by decide) (by decide) rfl (by decide) rfl rfl (by decide)⟩

/-- `cast_vote` never touches the polls table. -/
theorem cast_vote_polls_eq (s : Store) (m : ConnectionManager)
    (sendOk : Nat -> Bool) (oid uid : Nat) :
    (cast_vote s m sendOk oid uid).store.polls = s.polls := by
  rcases hu : s.users.find? (fun u => u.id == uid) with _ | user
  . simp [cast_vote, hu]
  rcases ho : s.pollOptions.find? (fun o => o.id == oid) with _ | opt
  . simp [cast_vote, hu, ho]
  simp only [cast_vote, hu, ho]
  repeat' split
  all_goals simp [Store.insertVote]

theorem cast_vote_updated_at_counterexample :
    (cast_vote storeA mgrA (fun _ => true) 1 1).result.isOk = true ∧
    (cast_vote storeA mgrA (fun _ => true) 1 1).store.votes.length = 1 ∧
    storeA.polls.map (fun p => p.updated_at) = [3] ∧
    (cast_vote storeA mgrA (fun _ => true) 1 1).store.polls.map (fun p => p.updated_at)
      = [3] := by
  refine ⟨?_, ?_, ?_, ?_⟩ <;> decide

/-- Claim C10: every failing `cast_vote` emits no broadcast and leaves the
connection manager untouched. -/
theorem cast_vote_error_no_broadcast (s : Store) (m : ConnectionManager)
    (sendOk : Nat → Bool) (oid uid : Nat) (e : ApiError)
    (h : (cast_vote s m sendOk oid uid).result = .error e) :
    (cast_vote s m sendOk oid uid).broadcasts = [] ∧
    (cast_vote s m sendOk oid uid).mgr = m := by
  rcases hu : s.users.find? (fun u => u.id == uid) with _ | user
  · simp [cast_vote, hu]
  rcases ho : s.pollOptions.find? (fun o => o.id == oid) with _ | opt
  · simp [cast_vote, hu, ho]
  simp only [cast_vote, hu, ho] at h ⊢
  revert h
  repeat' split
  all_goals simp

theorem cast_vote_error_no_broadcast_witness :
    (cast_vote storeA mgrA (fun _ => true) 1 99).result = .error ⟨404, "User not found"⟩ ∧
    (cast_vote storeA mgrA (fun _ => true) 1 99).broadcasts = [] ∧
    (cast_vote storeA mgrA (fun _ => true) 1 99).mgr = mgrA :=
  ⟨by decide,
   cast_vote_error_no_broadcast storeA mgrA (fun _ => true) 1 99
     ⟨404, "User not found"⟩ (by decide)⟩

theorem cast_vote_response_counterexample :
    (cast_vote storeB1 ⟨[], []⟩ (fun _ => true) 1 1).result
      = (cast_vote storeB2 ⟨[], []⟩ (fun _ => true) 1 1).result ∧
    (cast_vote storeB1 ⟨[], []⟩ (fun _ => true) 1 1).result.isOk = true ∧
    storeB1.pollOptions.map (fun o => o.poll_id) = [1] ∧
    storeB2.pollOptions.map (fun o => o.poll_id) = [2] ∧
    (cast_vote storeB1 ⟨[], []⟩ (fun _ => true) 1 1).result = .ok ⟨1, 1, 11⟩ ∧
    (cast_vote storeB1 ⟨[], []⟩ (fun _ => true) 1 1).store.votes.map (fun v => v.created_at)
      = [10] := by
  refine ⟨?_, ?_, ?_, ?_, ?_, ?_⟩ <;> decide

theorem already_voted_guard (s : Store) (uid pid : Nat) (v : VoteRow) (o : PollOption)
    (hv : v ∈ s.votes) (hvu : v.user_id = uid)
    (ho : o ∈ s.pollOptions) (hop : o.poll_id = pid) (hoi : o.id = v.poll_option_id) :
    ((s.votes.filter (fun w => w.user_id == uid)).any
      (fun w => ((s.optionsOfPoll pid).map (fun o2 => o2.id)).contains w.poll_option_id))
      = true := by
  rw [List.any_eq_true]
  refine ⟨v, List.mem_filter.mpr ⟨hv, by simp [hvu]⟩, ?_⟩
  have hm : v.poll_option_id ∈ (s.optionsOfPoll pid).map (fun o2 => o2.id) := by
    rw [List.mem_map]
    exact ⟨o, List.mem_filter.mpr ⟨ho, by simp [hop, Store.optionsOfPoll]⟩, hoi⟩
  simpa using hm

/-- Claim C9 (amended): a successful `cast_vote` returns exactly the user
id, the option id and a fresh timestamp strictly later than every stored
vote row for that (user, option); the parent poll id is not part of the
response. -/
theorem cast_vote_response_fields (s : Store) (m : ConnectionManager)
    (sendOk : Nat → Bool) (oid uid : Nat) (r : VoteResponse)
    (h : (cast_vote s m sendOk oid uid).result = .ok r) :
    r.user_id = uid ∧ r.poll_option_id = oid ∧
    ∀ v ∈ (cast_vote s m sendOk oid uid).store.votes,
      v.user_id = uid → v.poll_option_id = oid → v.created_at < r.created_at := by
  rcases hu : s.users.find? (fun u => u.id == uid) with _ | user
  · simp [cast_vote, hu] at h
  rcases ho : s.pollOptions.find? (fun o => o.id == oid) with _ | opt
  · simp [cast_vote, hu, ho] at h
  have huid : user.id = uid := by simpa using List.find?_some hu
  have hoid : opt.id = oid := by simpa using List.find?_some ho
  have homem : opt ∈ s.pollOptions := List.mem_of_find?_eq_some ho
  simp only [cast_vote, hu, ho] at h ⊢
  by_cases hg : ((s.votes.filter (fun w => w.user_id == uid)).any
      (fun w => ((s.optionsOfPoll opt.poll_id).map (fun o2 => o2.id)).contains
        w.poll_option_id)) = true
  · rw [if_pos hg] at h
    simp at h
  · rw [if_neg hg] at h ⊢
    by_cases hd : (s.votes.any fun v => v.user_id == user.id && v.poll_option_id == opt.id)
        = true
    · exfalso
      rw [List.any_eq_true] at hd
      obtain ⟨v, hv, hvp⟩ := hd
      simp only [Bool.and_eq_true, beq_iff_eq] at hvp
      exact hg (already_voted_guard s uid opt.poll_id v opt hv (hvp.1.trans huid)
        homem rfl hvp.2.symm)
    · rw [if_neg hd] at h ⊢
      rcases hrp : get_poll_with_votes (s.insertVote uid opt.id) opt.poll_id with e | pd
      · rw [hrp] at h
        simp at h
      · rw [hrp] at h
        simp only [Except.ok.injEq] at h
        subst h
        refine ⟨rfl, rfl, ?_⟩
        intro v hv hvu hvo
        simp only [Store.insertVote, List.mem_append, List.mem_singleton] at hv
        rcases hv with hv | hv
        · exfalso
          exact hg (already_voted_guard s uid opt.poll_id v opt hv hvu homem rfl
            (hoid.trans hvo.symm))
        · subst hv
          simp [Store.insertVote]

theorem cast_vote_response_fields_witness :
    (cast_vote storeB1 ⟨[], []⟩ (fun _ => true) 1 1).result = .ok ⟨1, 1, 11⟩ ∧
    (10 : Nat) < 11 :=
  ⟨by decide,
   (cast_vote_response_fields storeB1 ⟨[], []⟩ (fun _ => true) 1 1 ⟨1, 1, 11⟩
      (by decide)).2.2 ⟨1, 1, 1, 10⟩ (by decide) rfl rfl⟩

theorem foldl_erase_eq_filter (ds : List Nat) :
    ∀ l : List Nat, l.Nodup →
      ds.foldl (fun acc c => acc.erase c) l = l.filter (fun x => !ds.contains x) := by
  induction ds with
  | nil => intro l _; simp
  | cons d ds ih =>
      intro l hl
      rw [List.foldl_cons, ih (l.erase d) (hl.erase d), hl.erase_eq_filter d,
        List.filter_filter]
      refine List.filter_congr ?_
      intro x _
      by_cases hxd : x = d <;> simp [hxd]

theorem cast_vote_result_same_for_delivery (s : Store) (m : ConnectionManager)
    (sendOk sendOk2 : Nat → Bool) (oid uid : Nat) :
    (cast_vote s m sendOk oid uid).result = (cast_vote s m sendOk2 oid uid).result := by
  rcases hu : s.users.find? (fun u => u.id == uid) with _ | user
  · simp [cast_vote, hu]
  rcases ho : s.pollOptions.find? (fun o => o.id == oid) with _ | opt
  · simp [cast_vote, hu, ho]
  simp only [cast_vote, hu, ho]
  repeat' split
  all_goals simp_all

/-- Claim C4: a broadcast attempts delivery to every observer subscribed
at broadcast start, removes exactly the observers whose delivery failed
(subscribers of other polls untouched), and no delivery failure reaches
the vote-casting caller: the result of `cast_vote` does not depend on the
delivery oracle. -/
theorem broadcast_fanout (m : ConnectionManager) (pid q : Nat)
    (sendOk sendOk2 : Nat → Bool) (s : Store) (oid uid : Nat)
    (hnd : (m.subscribersOf pid).Nodup) (hq : q ≠ pid) :
    (m.broadcast_poll_update pid sendOk).attempted = m.subscribersOf pid ∧
    ((m.broadcast_poll_update pid sendOk).mgr).subscribersOf pid
      = (m.subscribersOf pid).filter (fun c => sendOk c) ∧
    ((m.broadcast_poll_update pid sendOk).mgr).subscribersOf q = m.subscribersOf q ∧
    (cast_vote s m sendOk oid uid).result = (cast_vote s m sendOk2 oid uid).result := by
  refine ⟨?_, ?_, ?_, cast_vote_result_same_for_delivery s m sendOk sendOk2 oid uid⟩
  case _ =>
    rcases hfind : m.poll_subscribers.find? (fun e => e.1 == pid) with _ | entry
    · simp [ConnectionManager.broadcast_poll_update, ConnectionManager.subscribersOf, hfind]
    · simp [ConnectionManager.broadcast_poll_update, ConnectionManager.subscribersOf, hfind]
  case _ =>
    rcases hfind : m.poll_subscribers.find? (fun e => e.1 == pid) with _ | entry
    · simp [ConnectionManager.broadcast_poll_update, ConnectionManager.subscribersOf, hfind]
    · have hkey : (entry.1 == pid) = true := by
        have h0 := List.find?_some (p := fun e : Nat × List Nat => e.1 == pid) hfind
        simpa using h0
      have hsub : m.subscribersOf pid = entry.2 := by
        simp [ConnectionManager.subscribersOf, hfind]
      rw [hsub] at hnd ⊢
      simp only [ConnectionManager.broadcast_poll_update, hfind,
        ConnectionManager.subscribersOf, List.find?_map]
      have hpf : ((fun e : Nat × List Nat => e.1 == pid) ∘
          (fun e2 : Nat × List Nat => if e2.1 == pid
            then (e2.1, ((entry.2.filter (fun c => !sendOk c)).foldl
              (fun acc c => acc.erase c) entry.2))
            else e2)) = fun e : Nat × List Nat => e.1 == pid := by
        funext e
        by_cases he : e.1 = pid <;> simp [he]
      rw [hpf, hfind]
      simp only [Option.map_some', hkey, if_true, Option.getD_some]
      rw [foldl_erase_eq_filter _ _ hnd]
      refine List.filter_congr ?_
      intro x hx
      by_cases hsx : sendOk x = true <;>
        simp [List.contains, List.elem_eq_mem, List.mem_filter, hsx, hx]
  case _ =>
    rcases hfind : m.poll_subscribers.find? (fun e => e.1 == pid) with _ | entry
    · simp [ConnectionManager.broadcast_poll_update, ConnectionManager.subscribersOf, hfind]
    · simp only [ConnectionManager.broadcast_poll_update, hfind,
        ConnectionManager.subscribersOf, List.find?_map]
      have hpf : ((fun e : Nat × List Nat => e.1 == q) ∘
          (fun e2 : Nat × List Nat => if e2.1 == pid
            then (e2.1, ((entry.2.filter (fun c => !sendOk c)).foldl
              (fun acc c => acc.erase c) entry.2))
            else e2)) = fun e : Nat × List Nat => e.1 == q := by
        funext e
        by_cases he : e.1 = pid <;> simp [he]
      rw [hpf]
      rcases hfq : m.poll_subscribers.find? (fun e => e.1 == q) with _ | e2
      · rw [hfq]
        rfl
      · rw [hfq]
        have hkq : e2.1 = q := by
          have h0 := List.find?_some (p := fun e : Nat × List Nat => e.1 == q) hfq
          simpa using h0
        simp [hkq, hq]

theorem broadcast_fanout_witness :
    (mgrA.subscribersOf 1).Nodup ∧ (2 : Nat) ≠ 1 ∧
    ((mgrA.broadcast_poll_update 1 (fun c => c == 5)).attempted = mgrA.subscribersOf 1 ∧
     ((mgrA.broadcast_poll_update 1 (fun c => c == 5)).mgr).subscribersOf 1
       = (mgrA.subscribersOf 1).filter (fun c => c == 5) ∧
     ((mgrA.broadcast_poll_update 1 (fun c => c == 5)).mgr).subscribersOf 2
       = mgrA.subscribersOf 2 ∧
     (cast_vote storeA mgrA (fun c => c == 5) 1 1).result
       = (cast_vote storeA mgrA (fun _ => true) 1 1).result) :=
  ⟨by decide, by decide,
   broadcast_fanout mgrA 1 2 (fun c => c == 5) (fun _ => true) storeA 1 1
     (by decide) (by decide)⟩

theorem votersOf_nodup (s : Store) (oid : Nat)
    (hn : (s.votes.map (fun v => (v.user_id, v.poll_option_id))).Nodup) :
    (s.votersOf oid).Nodup := by
  have hnv : s.votes.Nodup := hn.of_map _
  have hfl : (s.votes.filter (fun v => v.poll_option_id == oid)).Nodup :=
    hnv.filter _
  refine hfl.map_on ?_
  intro x hx y hy hxy
  have hxm := List.mem_filter.mp hx
  have hym := List.mem_filter.mp hy
  have hxo : x.poll_option_id = oid := by simpa using hxm.2
  have hyo : y.poll_option_id = oid := by simpa using hym.2
  refine List.inj_on_of_nodup_map hn hxm.1 hym.1 ?_
  simp only [Prod.mk.injEq]
  exact ⟨hxy, hxo.trans hyo.symm⟩

/-- Claim C5: every option's reported vote_count equals the number of
distinct users holding a stored vote for it. -/
theorem snapshot_counts_distinct_users (s : Store) (pid : Nat) (r : PollResponse)
    (hn : (s.votes.map (fun v => (v.user_id, v.poll_option_id))).Nodup)
    (hr : get_poll_with_votes s pid = .ok r) :
    ∀ e ∈ r.options,
      e.vote_count =
        (((s.votes.filter (fun v => v.poll_option_id == e.id)).map
          (fun v => v.user_id)).dedup).length := by
  rcases hp : s.polls.find? (fun p => p.id == pid) with _ | poll
  · simp [get_poll_with_votes, hp] at hr
  simp only [get_poll_with_votes, hp, Except.ok.injEq] at hr
  subst hr
  intro e he
  rw [List.mem_map] at he
  obtain ⟨o, _, rfl⟩ := he
  have hnd : (s.votersOf o.id).Nodup := votersOf_nodup s o.id hn
  show (s.votersOf o.id).length = (s.votersOf o.id).dedup.length
  rw [List.dedup_eq_self.mpr hnd]

theorem snapshot_counts_distinct_users_witness :
    (storeC.votes.map (fun v => (v.user_id, v.poll_option_id))).Nodup ∧
    get_poll_with_votes storeC 1 =
      .ok ⟨1, "q", true, 3, 3, 1, [⟨1, "red", 2⟩, ⟨2, "blue", 0⟩]⟩ ∧
    (⟨1, "red", 2⟩ : PollOptionResponse).vote_count =
      (((storeC.votes.filter (fun v =>
          v.poll_option_id == (⟨1, "red", 2⟩ : PollOptionResponse).id)).map
        (fun v => v.user_id)).dedup).length :=
  ⟨by decide, by decide,
   snapshot_counts_distinct_users storeC 1
     ⟨1, "q", true, 3, 3, 1, [⟨1, "red", 2⟩, ⟨2, "blue", 0⟩]⟩
     (by decide) (by decide) ⟨1, "red", 2⟩ (by decide)⟩

/-- Claim C6: the options of a snapshot appear in the store order of the
options table (creation order), whatever the votes are. -/
theorem snapshot_option_order (s : Store) (pid : Nat) (p : Poll) (r r2 : PollResponse)
    (vs : List VoteRow)
    (hp : s.polls.find? (fun q => q.id == pid) = some p)
    (hr : get_poll_with_votes s pid = .ok r)
    (h2 : get_poll_with_votes { s with votes := vs } pid = .ok r2) :
    r.options.map (fun e => e.id) = (s.optionsOfPoll p.id).map (fun o => o.id) ∧
    r2.options.map (fun e => e.id) = r.options.map (fun e => e.id) := by
  have hp2 : ({ s with votes := vs } : Store).polls.find? (fun q => q.id == pid)
      = some p := hp
  simp only [get_poll_with_votes, hp, Except.ok.injEq] at hr
  simp only [get_poll_with_votes, hp2, Except.ok.injEq] at h2
  subst hr
  subst h2
  constructor
  · simp [List.map_map]
  · simp only [List.map_map]
    rfl

theorem snapshot_option_order_witness :
    storeC.polls.find? (fun q => q.id == 1) = some ⟨1, "q", true, 3, 3, 1⟩ ∧
    get_poll_with_votes storeC 1 =
      .ok ⟨1, "q", true, 3, 3, 1, [⟨1, "red", 2⟩, ⟨2, "blue", 0⟩]⟩ ∧
    get_poll_with_votes { storeC with votes := [] } 1 =
      .ok ⟨1, "q", true, 3, 3, 1, [⟨1, "red", 0⟩, ⟨2, "blue", 0⟩]⟩ ∧
    (([⟨1, "red", 2⟩, ⟨2, "blue", 0⟩] : List PollOptionResponse).map (fun e => e.id)
        = (storeC.optionsOfPoll 1).map (fun o => o.id) ∧
     ([⟨1, "red", 0⟩, ⟨2, "blue", 0⟩] : List PollOptionResponse).map (fun e => e.id)
        = ([⟨1, "red", 2⟩, ⟨2, "blue", 0⟩] : List PollOptionResponse).map (fun e => e.id)) :=
  ⟨by decide, by decide, by decide,
   snapshot_option_order storeC 1 ⟨1, "q", true, 3, 3, 1⟩
     ⟨1, "q", true, 3, 3, 1, [⟨1, "red", 2⟩, ⟨2, "blue", 0⟩]⟩
     ⟨1, "q", true, 3, 3, 1, [⟨1, "red", 0⟩, ⟨2, "blue", 0⟩]⟩
     [] (by decide) (by decide) (by decide)⟩

theorem StoreInv_congr (s s2 : Store)
    (hopts : s2.pollOptions = s.pollOptions) (hnext : s2.nextOptionId = s.nextOptionId)
    (hvotes : s2.votes = s.votes) (h : StoreInv s) : StoreInv s2 := by
  unfold StoreInv I1 at h ⊢
  rw [hopts, hnext, hvotes]
  exact h

theorem appendOption_inv (s : Store) (pid : Nat) (txt : String) (h : StoreInv s) :
    StoreInv { s with
      pollOptions := s.pollOptions ++ [⟨s.nextOptionId, txt, pid, s.now⟩],
      nextOptionId := s.nextOptionId + 1, now := s.now + 1 } := by
  obtain ⟨h1, h2, h3, h4⟩ := h
  refine ⟨?_, ?_, ?_, ?_⟩
  · simp only [List.map_append, List.map_cons, List.map_nil]
    rw [List.nodup_append]
    refine ⟨h1, List.nodup_singleton _, ?_⟩
    intro a ha hb
    rw [List.mem_singleton] at hb
    rw [List.mem_map] at ha
    obtain ⟨o, ho, rfl⟩ := ha
    have := h2 o ho
    omega
  · intro o ho
    rcases List.mem_append.mp ho with ho | ho
    · exact Nat.lt_succ_of_lt (h2 o ho)
    · rw [List.mem_singleton] at ho
      subst ho
      exact Nat.lt_succ_self _
  · intro v hv
    obtain ⟨o, ho, hoi⟩ := h3 v hv
    exact ⟨o, List.mem_append_left _ ho, hoi⟩
  · intro v1 hv1 v2 hv2 huser o1 ho1 o2 ho2 e1 e2 epoll
    have hold : ∀ o : PollOption,
        o ∈ s.pollOptions ++ [⟨s.nextOptionId, txt, pid, s.now⟩] →
        ∀ v ∈ s.votes, o.id = v.poll_option_id → o ∈ s.pollOptions := by
      intro o ho v hv hov
      rcases List.mem_append.mp ho with ho | ho
      · exact ho
      · exfalso
        rw [List.mem_singleton] at ho
        subst ho
        obtain ⟨o3, ho3, ho3i⟩ := h3 v hv
        have := h2 o3 ho3
        simp only at hov
        omega
    exact h4 v1 hv1 v2 hv2 huser o1 (hold o1 ho1 v1 hv1 e1) o2 (hold o2 ho2 v2 hv2 e2)
      e1 e2 epoll

theorem insertVote_inv (s : Store) (uid : Nat) (opt : PollOption)
    (h : StoreInv s) (hopt : opt ∈ s.pollOptions)
    (hguard : ∀ v ∈ s.votes, v.user_id = uid →
      v.poll_option_id ∉ (s.optionsOfPoll opt.poll_id).map (fun o => o.id)) :
    StoreInv (s.insertVote uid opt.id) := by
  obtain ⟨h1, h2, h3, h4⟩ := h
  refine ⟨h1, h2, ?_, ?_⟩
  · intro v hv
    rcases List.mem_append.mp hv with hv | hv
    · exact h3 v hv
    · rw [List.mem_singleton] at hv
      subst hv
      exact ⟨opt, hopt, rfl⟩
  · intro v1 hv1 v2 hv2 huser o1 ho1 o2 ho2 e1 e2 epoll
    simp only [Store.insertVote, List.mem_append, List.mem_singleton] at hv1 hv2
    have hkill : ∀ vOld : VoteRow, vOld ∈ s.votes → vOld.user_id = uid →
        ∀ oOld ∈ s.pollOptions, oOld.id = vOld.poll_option_id →
        oOld.poll_id = opt.poll_id → False := by
      intro vOld hvOld hvu oOld hoOld hoi hop
      refine hguard vOld hvOld hvu ?_
      rw [List.mem_map]
      exact ⟨oOld, List.mem_filter.mpr ⟨hoOld, by simp [hop]⟩, hoi⟩
    rcases hv1 with hv1 | hv1 <;> rcases hv2 with hv2 | hv2
    · exact h4 v1 hv1 v2 hv2 huser o1 ho1 o2 ho2 e1 e2 epoll
    · subst hv2
      have ho2opt : o2 = opt :=
        List.inj_on_of_nodup_map h1 ho2 hopt e2
      exfalso
      exact hkill v1 hv1 (by simpa using huser) o1 ho1 e1 (ho2opt ▸ epoll)
    · subst hv1
      have ho1opt : o1 = opt :=
        List.inj_on_of_nodup_map h1 ho1 hopt e1
      exfalso
      exact hkill v2 hv2 (by simpa using huser.symm) o2 ho2 e2 (ho1opt ▸ epoll.symm)
    · subst hv1
      subst hv2
      rfl

theorem cast_vote_storeInv (s : Store) (m : ConnectionManager) (sendOk : Nat → Bool)
    (oid uid : Nat) (h : StoreInv s) :
    StoreInv (cast_vote s m sendOk oid uid).store := by
  rcases hu : s.users.find? (fun u => u.id == uid) with _ | user
  · simpa [cast_vote, hu] using h
  rcases ho : s.pollOptions.find? (fun o => o.id == oid) with _ | opt
  · simpa [cast_vote, hu, ho] using h
  simp only [cast_vote, hu, ho]
  by_cases hg : ((s.votes.filter (fun w => w.user_id == uid)).any
      (fun w => ((s.optionsOfPoll opt.poll_id).map (fun o2 => o2.id)).contains
        w.poll_option_id)) = true
  · rw [if_pos hg]
    exact h
  · rw [if_neg hg]
    by_cases hd : (s.votes.any fun v => v.user_id == user.id && v.poll_option_id == opt.id)
        = true
    · rw [if_pos hd]
      rcases hr : get_poll_with_votes s opt.poll_id with e | pd
      · exact h
      · exact StoreInv_congr s _ rfl rfl rfl h
    · rw [if_neg hd]
      have hins : StoreInv (s.insertVote uid opt.id) := by
        refine insertVote_inv s uid opt h (List.mem_of_find?_eq_some ho) ?_
        intro v hv hvu hmem
        refine absurd ?_ hg
        rw [List.any_eq_true]
        exact ⟨v, List.mem_filter.mpr ⟨hv, by simp [hvu]⟩, by simpa using hmem⟩
      rcases hr : get_poll_with_votes (s.insertVote uid opt.id) opt.poll_id with e | pd
      · exact hins
      · exact StoreInv_congr _ _ rfl rfl rfl hins

theorem create_user_storeInv (s : Store) (n e p : String) (h : StoreInv s) :
    StoreInv (create_user s n e p).2 := by
  rcases hf : s.users.find? (fun u => u.email == e) with _ | u <;>
    simp only [create_user, hf] <;>
    exact StoreInv_congr s _ rfl rfl rfl h

theorem addOptions_storeInv (pid : Nat) (texts : List String) :
    ∀ s : Store, StoreInv s → StoreInv (addOptions pid texts s) := by
  induction texts with
  | nil => intro s h; exact h
  | cons t ts ih =>
      intro s h
      exact ih _ (appendOption_inv s pid t h)

theorem create_poll_storeInv (s : Store) (q : String) (pub : Bool)
    (texts : List String) (cid : Nat) (h : StoreInv s) :
    StoreInv (create_poll s q pub texts cid).2 := by
  rcases hf : s.users.find? (fun u => u.id == cid) with _ | u <;>
    simp only [create_poll, hf]
  · exact h
  · exact addOptions_storeInv _ _ _ (StoreInv_congr s _ rfl rfl rfl h)

theorem step_storeInv (σ : Sys) (op : Op) (h : StoreInv σ.store) :
    StoreInv (step σ op).store := by
  cases op with
  | createUser n e p => exact create_user_storeInv σ.store n e p h
  | createPoll q pub ts cid => exact create_poll_storeInv σ.store q pub ts cid h
  | castVote oid uid f => exact cast_vote_storeInv σ.store σ.mgr f oid uid h
  | buildSnapshot pid => exact h
  | wsConnect pid ws ok => exact h
  | wsDisconnect ws => exact h

theorem foldl_step_storeInv (ops : List Op) :
    ∀ σ : Sys, StoreInv σ.store → StoreInv (ops.foldl step σ).store := by
  induction ops with
  | nil => intro σ h; exact h
  | cons op ops ih =>
      intro σ h
      exact ih _ (step_storeInv σ op h)

theorem run_storeInv (ops : List Op) : StoreInv (run ops).store := by
  refine foldl_step_storeInv ops initSys ⟨?_, ?_, ?_, ?_⟩ <;>
    simp [initSys, I1]

/-- Claim C2: invariant I1 — at most one option of any poll in a user's
vote set — holds in every state reachable by any sequence of operations
from the initial state. -/
theorem vote_ledger_I1_invariant (ops : List Op) : I1 (run ops).store :=
  (run_storeInv ops).2.2.2

theorem vote_ledger_I1_invariant_witness :
    I1 (run [Op.createUser "a" "a@x" "pw",
             Op.createPoll "q" true ["red", "blue"] 1,
             Op.castVote 2 1 (fun _ => true),
             Op.castVote 1 1 (fun _ => true)]).store :=
  vote_ledger_I1_invariant _

theorem mem_foldl_erase {ds l : List Nat} {x : Nat}
    (hx : x ∈ ds.foldl (fun acc c => acc.erase c) l) : x ∈ l := by
  induction ds generalizing l with
  | nil => simpa using hx
  | cons d ds ih => exact List.erase_subset _ _ (ih hx)

theorem foldl_erase_nodup {ds l : List Nat} (h : l.Nodup) :
    (ds.foldl (fun acc c => acc.erase c) l).Nodup := by
  induction ds generalizing l with
  | nil => simpa using h
  | cons d ds ih => exact ih (h.erase d)

/-- Sockets registered for polls are untouched by `connect`. -/
theorem connect_subscribers (m : ConnectionManager) (ws : Nat) :
    (m.connect ws).poll_subscribers = m.poll_subscribers := rfl

theorem subscribe_members (m : ConnectionManager) (pid ws : Nat)
    (e2 : Nat × List Nat)
    (he : e2 ∈ (m.subscribe_to_poll pid ws).poll_subscribers)
    (x : Nat) (hx : x ∈ e2.2) :
    (∃ e ∈ m.poll_subscribers, e.1 = e2.1 ∧ x ∈ e.2) ∨ (x = ws ∧ e2.1 = pid) := by
  unfold ConnectionManager.subscribe_to_poll at he
  simp only [List.mem_map] at he
  obtain ⟨e0, he0, heq⟩ := he
  have he0m : e0 ∈ m.poll_subscribers ∨ e0 = (pid, ([] : List Nat)) := by
    by_cases hfs : (m.poll_subscribers.find? (fun e => e.1 == pid)).isSome = true
    · rw [if_pos hfs] at he0
      exact Or.inl he0
    · rw [if_neg hfs] at he0
      rcases List.mem_append.mp he0 with h0 | h0
      · exact Or.inl h0
      · rw [List.mem_singleton] at h0
        exact Or.inr h0
  by_cases hk : (e0.1 == pid) = true
  · rw [if_pos hk] at heq
    subst heq
    have hk2 : e0.1 = pid := by simpa using hk
    by_cases hc : e0.2.contains ws = true
    · rw [if_pos hc] at hx
      rcases he0m with h0 | h0
      · exact Or.inl ⟨e0, h0, rfl, hx⟩
      · rw [h0] at hx
        simp at hx
    · rw [if_neg hc] at hx
      rcases List.mem_append.mp hx with hx0 | hx0
      · rcases he0m with h0 | h0
        · exact Or.inl ⟨e0, h0, rfl, hx0⟩
        · rw [h0] at hx0
          simp at hx0
      · rw [List.mem_singleton] at hx0
        exact Or.inr ⟨hx0, hk2⟩
  · rw [if_neg hk] at heq
    subst heq
    rcases he0m with h0 | h0
    · exact Or.inl ⟨e0, h0, rfl, hx⟩
    · rw [h0] at hk
      simp at hk

theorem disconnect_members (m : ConnectionManager) (ws : Nat)
    (e2 : Nat × List Nat)
    (he : e2 ∈ (m.disconnect ws).poll_subscribers)
    (x : Nat) (hx : x ∈ e2.2) :
    ∃ e ∈ m.poll_subscribers, e.1 = e2.1 ∧ x ∈ e.2 := by
  unfold ConnectionManager.disconnect at he
  simp only [List.mem_map] at he
  obtain ⟨e0, he0, heq⟩ := he
  by_cases hc : e0.2.contains ws = true
  · rw [if_pos hc] at heq
    subst heq
    exact ⟨e0, he0, rfl, List.erase_subset _ _ hx⟩
  · rw [if_neg hc] at heq
    subst heq
    exact ⟨e0, he0, rfl, hx⟩

theorem disconnect_members_ne (m : ConnectionManager) (ws : Nat)
    (hnd : ∀ e ∈ m.poll_subscribers, e.2.Nodup)
    (e2 : Nat × List Nat)
    (he : e2 ∈ (m.disconnect ws).poll_subscribers)
    (x : Nat) (hx : x ∈ e2.2) :
    ∃ e ∈ m.poll_subscribers, e.1 = e2.1 ∧ x ∈ e.2 ∧ x ≠ ws := by
  unfold ConnectionManager.disconnect at he
  simp only [List.mem_map] at he
  obtain ⟨e0, he0, heq⟩ := he
  by_cases hc : e0.2.contains ws = true
  · rw [if_pos hc] at heq
    subst heq
    have hnd0 := hnd e0 he0
    rw [hnd0.erase_eq_filter ws] at hx
    have hx2 := List.mem_filter.mp hx
    refine ⟨e0, he0, rfl, hx2.1, by simpa using hx2.2⟩
  · rw [if_neg hc] at heq
    subst heq
    refine ⟨e0, he0, rfl, hx, ?_⟩
    intro hxw
    subst hxw
    exact hc (by simp [List.contains, List.elem_eq_mem, hx])

theorem broadcast_members (m : ConnectionManager) (pid : Nat) (sendOk : Nat → Bool)
    (e2 : Nat × List Nat)
    (he : e2 ∈ ((m.broadcast_poll_update pid sendOk).mgr).poll_subscribers)
    (x : Nat) (hx : x ∈ e2.2) :
    ∃ e ∈ m.poll_subscribers, e.1 = e2.1 ∧ x ∈ e.2 := by
  unfold ConnectionManager.broadcast_poll_update at he
  rcases hfind : m.poll_subscribers.find? (fun e => e.1 == pid) with _ | entry
  · rw [hfind] at he
    exact ⟨e2, he, rfl, hx⟩
  · rw [hfind] at he
    simp only [List.mem_map] at he
    obtain ⟨e0, he0, heq⟩ := he
    by_cases hk : (e0.1 == pid) = true
    · rw [if_pos hk] at heq
      subst heq
      refine ⟨entry, List.mem_of_find?_eq_some hfind, ?_, mem_foldl_erase hx⟩
      have h1 : entry.1 = pid := by
        have h0 := List.find?_some (p := fun e : Nat × List Nat => e.1 == pid) hfind
        simpa using h0
      have h2 : e0.1 = pid := by simpa using hk
      simp [h1, h2]
    · rw [if_neg hk] at heq
      subst heq
      exact ⟨e0, he0, rfl, hx⟩

theorem subscribe_mgrNodup (m : ConnectionManager) (pid ws : Nat) (h : MgrNodup m) :
    MgrNodup (m.subscribe_to_poll pid ws) := by
  intro e2 he
  unfold ConnectionManager.subscribe_to_poll at he
  simp only [List.mem_map] at he
  obtain ⟨e0, he0, heq⟩ := he
  have hnd0 : e0.2.Nodup := by
    by_cases hfs : (m.poll_subscribers.find? (fun e => e.1 == pid)).isSome = true
    · rw [if_pos hfs] at he0
      exact h e0 he0
    · rw [if_neg hfs] at he0
      rcases List.mem_append.mp he0 with h0 | h0
      · exact h e0 h0
      · rw [List.mem_singleton] at h0
        rw [h0]
        exact List.nodup_nil
  by_cases hk : (e0.1 == pid) = true
  · rw [if_pos hk] at heq
    subst heq
    show (if e0.2.contains ws = true then e0.2 else e0.2 ++ [ws]).Nodup
    by_cases hc : e0.2.contains ws = true
    · rw [if_pos hc]
      exact hnd0
    · rw [if_neg hc]
      rw [List.nodup_append]
      refine ⟨hnd0, List.nodup_singleton _, ?_⟩
      intro a ha hb
      rw [List.mem_singleton] at hb
      subst hb
      exact hc (by simp [List.contains, List.elem_eq_mem, ha])
  · rw [if_neg hk] at heq
    subst heq
    exact hnd0

theorem disconnect_mgrNodup (m : ConnectionManager) (ws : Nat) (h : MgrNodup m) :
    MgrNodup (m.disconnect ws) := by
  intro e2 he
  unfold ConnectionManager.disconnect at he
  simp only [List.mem_map] at he
  obtain ⟨e0, he0, heq⟩ := he
  by_cases hc : e0.2.contains ws = true
  · rw [if_pos hc] at heq
    subst heq
    exact (h e0 he0).erase ws
  · rw [if_neg hc] at heq
    subst heq
    exact h e0 he0

theorem broadcast_mgrNodup (m : ConnectionManager) (pid : Nat) (sendOk : Nat → Bool)
    (h : MgrNodup m) : MgrNodup ((m.broadcast_poll_update pid sendOk).mgr) := by
  intro e2 he
  unfold ConnectionManager.broadcast_poll_update at he
  rcases hfind : m.poll_subscribers.find? (fun e => e.1 == pid) with _ | entry
  · rw [hfind] at he
    exact h e2 he
  · rw [hfind] at he
    simp only [List.mem_map] at he
    obtain ⟨e0, he0, heq⟩ := he
    by_cases hk : (e0.1 == pid) = true
    · rw [if_pos hk] at heq
      subst heq
      exact foldl_erase_nodup (h entry (List.mem_of_find?_eq_some hfind))
    · rw [if_neg hk] at heq
      subst heq
      exact h e0 he0

theorem create_user_polls (s : Store) (n e p : String) :
    (create_user s n e p).2.polls = s.polls := by
  rcases hf : s.users.find? (fun u => u.email == e) with _ | u <;>
    simp [create_user, hf]

theorem addOptions_polls (pid : Nat) (texts : List String) :
    ∀ s : Store, (addOptions pid texts s).polls = s.polls := by
  induction texts with
  | nil => intro s; rfl
  | cons t ts ih => intro s; exact ih _

theorem create_poll_polls_mono (s : Store) (q : String) (pub : Bool)
    (texts : List String) (cid : Nat) (p : Poll) (hp : p ∈ s.polls) :
    p ∈ (create_poll s q pub texts cid).2.polls := by
  rcases hf : s.users.find? (fun u => u.id == cid) with _ | u <;>
    simp only [create_poll, hf]
  · exact hp
  · rw [addOptions_polls]
    exact List.mem_append_left _ hp

theorem cast_vote_mgr_cases (s : Store) (m : ConnectionManager) (sendOk : Nat → Bool)
    (oid uid : Nat) :
    (cast_vote s m sendOk oid uid).mgr = m ∨
    ∃ pid, (cast_vote s m sendOk oid uid).mgr = (m.broadcast_poll_update pid sendOk).mgr := by
  rcases hu : s.users.find? (fun u => u.id == uid) with _ | user
  · left
    simp [cast_vote, hu]
  rcases ho : s.pollOptions.find? (fun o => o.id == oid) with _ | opt
  · left
    simp [cast_vote, hu, ho]
  simp only [cast_vote, hu, ho]
  by_cases hg : ((s.votes.filter (fun w => w.user_id == uid)).any
      (fun w => ((s.optionsOfPoll opt.poll_id).map (fun o2 => o2.id)).contains
        w.poll_option_id)) = true
  · rw [if_pos hg]
    left
    rfl
  · rw [if_neg hg]
    by_cases hd : (s.votes.any fun v => v.user_id == user.id && v.poll_option_id == opt.id)
        = true
    · rw [if_pos hd]
      rcases hr : get_poll_with_votes s opt.poll_id with e | pd
      · left
        rfl
      · right
        exact ⟨opt.poll_id, rfl⟩
    · rw [if_neg hd]
      rcases hr : get_poll_with_votes (s.insertVote uid opt.id) opt.poll_id with e | pd
      · left
        rfl
      · right
        exact ⟨opt.poll_id, rfl⟩

theorem get_poll_ok_exists (s : Store) (pid : Nat) (r : PollResponse)
    (h : get_poll_with_votes s pid = .ok r) : ∃ p ∈ s.polls, p.id = pid := by
  rcases hp : s.polls.find? (fun q => q.id == pid) with _ | p
  · simp [get_poll_with_votes, hp] at h
  · refine ⟨p, List.mem_of_find?_eq_some hp, ?_⟩
    have h0 := List.find?_some (p := fun q : Poll => q.id == pid) hp
    simpa using h0

theorem websocket_endpoint_sysInv (σ : Sys) (pid ws : Nat) (ok : Bool) (h : SysInv σ) :
    SysInv ⟨σ.store, websocket_endpoint σ.store σ.mgr pid ws ok⟩ := by
  obtain ⟨hs, hn⟩ := h
  have hnC : MgrNodup (σ.mgr.connect ws) := hn
  have hsC : ∀ e ∈ (σ.mgr.connect ws).poll_subscribers, ∀ x ∈ e.2,
      ∃ p ∈ σ.store.polls, p.id = e.1 := hs
  have hnS := subscribe_mgrNodup (σ.mgr.connect ws) pid ws hnC
  unfold websocket_endpoint
  rcases hr : get_poll_with_votes σ.store pid with e | pd
  · refine ⟨?_, disconnect_mgrNodup _ ws hnS⟩
    intro e2 he x hx
    obtain ⟨e1, he1, hkey, hx1, hxw⟩ := disconnect_members_ne _ ws hnS e2 he x hx
    rcases subscribe_members _ pid ws e1 he1 x hx1 with ⟨e0, he0, hk0, hx0⟩ | ⟨hxws, _⟩
    · obtain ⟨p2, hp2, hpe⟩ := hsC e0 he0 x hx0
      exact ⟨p2, hp2, by rw [hpe, hk0, hkey]⟩
    · exact absurd hxws hxw
  · have hpoll : ∃ p ∈ σ.store.polls, p.id = pid := get_poll_ok_exists σ.store pid pd hr
    have hsubs : ∀ e2 ∈ ((σ.mgr.connect ws).subscribe_to_poll pid ws).poll_subscribers,
        ∀ x ∈ e2.2, ∃ p ∈ σ.store.polls, p.id = e2.1 := by
      intro e2 he x hx
      rcases subscribe_members _ pid ws e2 he x hx with ⟨e0, he0, hk0, hx0⟩ | ⟨_, hkey⟩
      · obtain ⟨p2, hp2, hpe⟩ := hsC e0 he0 x hx0
        exact ⟨p2, hp2, by rw [hpe, hk0]⟩
      · obtain ⟨p2, hp2, hpe⟩ := hpoll
        exact ⟨p2, hp2, by rw [hpe, hkey]⟩
    cases ok with
    | true => exact ⟨hsubs, hnS⟩
    | false =>
        refine ⟨?_, disconnect_mgrNodup _ ws hnS⟩
        intro e2 he x hx
        obtain ⟨e1, he1, hkey, hx1⟩ := disconnect_members _ ws e2 he x hx
        obtain ⟨p2, hp2, hpe⟩ := hsubs e1 he1 x hx1
        exact ⟨p2, hp2, by rw [hpe, hkey]⟩

theorem step_sysInv (σ : Sys) (op : Op) (h : SysInv σ) : SysInv (step σ op) := by
  obtain ⟨hs, hn⟩ := h
  cases op with
  | createUser n e p =>
      simp only [step]
      refine ⟨?_, hn⟩
      intro e2 he x hx
      obtain ⟨p2, hp2, hpe⟩ := hs e2 he x hx
      refine ⟨p2, ?_, hpe⟩
      rw [create_user_polls]
      exact hp2
  | createPoll q pub ts cid =>
      simp only [step]
      refine ⟨?_, hn⟩
      intro e2 he x hx
      obtain ⟨p2, hp2, hpe⟩ := hs e2 he x hx
      exact ⟨p2, create_poll_polls_mono σ.store q pub ts cid p2 hp2, hpe⟩
  | castVote oid uid f =>
      simp only [step]
      have hpolls : (cast_vote σ.store σ.mgr f oid uid).store.polls = σ.store.polls :=
        cast_vote_polls_eq σ.store σ.mgr f oid uid
      constructor
      · intro e2 he x hx
        rcases cast_vote_mgr_cases σ.store σ.mgr f oid uid with hc | ⟨pid, hc⟩
        · rw [hc] at he
          obtain ⟨p2, hp2, hpe⟩ := hs e2 he x hx
          refine ⟨p2, ?_, hpe⟩
          rw [hpolls]
          exact hp2
        · rw [hc] at he
          obtain ⟨e0, he0, hk0, hx0⟩ := broadcast_members σ.mgr pid f e2 he x hx
          obtain ⟨p2, hp2, hpe⟩ := hs e0 he0 x hx0
          refine ⟨p2, ?_, by rw [hpe, hk0]⟩
          rw [hpolls]
          exact hp2
      · rcases cast_vote_mgr_cases σ.store σ.mgr f oid uid with hc | ⟨pid, hc⟩
        · show MgrNodup (cast_vote σ.store σ.mgr f oid uid).mgr
          rw [hc]
          exact hn
        · show MgrNodup (cast_vote σ.store σ.mgr f oid uid).mgr
          rw [hc]
          exact broadcast_mgrNodup σ.mgr pid f hn
  | buildSnapshot pid => exact ⟨hs, hn⟩
  | wsConnect pid ws ok => exact websocket_endpoint_sysInv σ pid ws ok ⟨hs, hn⟩
  | wsDisconnect ws =>
      simp only [step]
      refine ⟨?_, disconnect_mgrNodup σ.mgr ws hn⟩
      intro e2 he x hx
      obtain ⟨e1, he1, hkey, hx1⟩ := disconnect_members σ.mgr ws e2 he x hx
      obtain ⟨p2, hp2, hpe⟩ := hs e1 he1 x hx1
      exact ⟨p2, hp2, by rw [hpe, hkey]⟩

theorem foldl_step_sysInv (ops : List Op) :
    ∀ σ : Sys, SysInv σ → SysInv (ops.foldl step σ) := by
  induction ops with
  | nil => intro σ h; exact h
  | cons op ops ih =>
      intro σ h
      exact ih _ (step_sysInv σ op h)

theorem run_sysInv (ops : List Op) : SysInv (run ops) := by
  refine foldl_step_sysInv ops initSys ⟨?_, ?_⟩ <;>
    simp [initSys, SubsInv, MgrNodup]

/-- Claim C8: in every reachable state, every socket registered in some
poll's subscriber list points at a poll present in the store; since polls
are never deleted and the endpoint removes the subscription before any
interleaving point when the poll is missing, this is exactly I3 (every
subscription's poll existed at subscribe time). -/
theorem subscriptions_reference_existing_polls (ops : List Op) :
    SubsInv (run ops) :=
  (run_sysInv ops).1

theorem subscriptions_reference_existing_polls_witness :
    SubsInv (run [Op.createUser "a" "a@x" "pw",
                  Op.createPoll "q" true ["red"] 1,
                  Op.wsConnect 1 7 true,
                  Op.wsConnect 99 8 true]) :=
  subscriptions_reference_existing_polls _

/-- Claim C7 (amended): a vote never advances any poll's updated_at —
`cast_vote` leaves the polls table, and with it every updated_at value,
exactly as it was. -/
theorem cast_vote_leaves_poll_updated_at (s : Store) (m : ConnectionManager)
    (sendOk : Nat → Bool) (oid uid : Nat) :
    (cast_vote s m sendOk oid uid).store.polls.map (fun p => p.updated_at)
      = s.polls.map (fun p => p.updated_at) := by
  rw [cast_vote_polls_eq]
